import Mathlib

/-!
Verification of the `cloud-run-crud-app` HTTP CRUD service (`index.js`).

The development shallowly embeds the parts of the program the specification
talks about:

* a model of the JavaScript values that can appear in a request body field,
  together with the `Number(...)` coercion and `String.prototype.trim()`
  (`JSVal`, `toNumber`, `jsTrim`);
* the pure validator `validateUser` (index.js lines 96-111);
* the five `/api/users` route handlers, modelled as pure state transformers
  over an association list standing for the `users` table; each SQL round
  trip is mediated by a failure schedule `sched : Nat -> Option String`
  (the n-th `pool.execute` of the request throws the given error message
  when `sched n = some e`, and succeeds when `sched n = none`);
* the retrying startup routine `initDatabase` (lines 72-94) and the event
  order of `app.listen` vs. `initDatabase` (lines 229-237).
-/

/-! ## JavaScript value model -/

/-- A JavaScript value as it can appear in a parsed JSON body field
(after `express.json()`), restricted to the shapes the validator inspects. -/
inductive JSVal where
  | undef
  | null
  | num (q : ℚ)
  | nan
  | str (s : String)
  | bool (b : Bool)
deriving DecidableEq

/-- Whitespace recognized by JavaScript `trim()` (the common code points). -/
def isJsWhitespace (c : Char) : Bool :=
  c == ' ' || c == '\t' || c == '\n' || c == '\r' || c == '\x0b' || c == '\x0c'

/-- Model of `String.prototype.trim()`: drop whitespace at both ends. -/
def jsTrim (s : String) : String :=
  String.mk (List.rdropWhile isJsWhitespace (List.dropWhile isJsWhitespace s.data))

/-- Digits of a decimal literal, read as a natural number. -/
def digitsVal (l : List Char) : ℕ :=
  l.foldl (fun a c => a * 10 + (c.toNat - 48)) 0

/-- All characters are decimal digits. -/
def allDigits (l : List Char) : Bool := l.all Char.isDigit

/-- Parse an unsigned decimal literal (`digits`, `digits.digits`, `.digits`,
`digits.`). -/
def parseUnsigned (l : List Char) : Option ℚ :=
  match l.span (fun c => c != '.') with
  | (ip, []) =>
    if !ip.isEmpty && allDigits ip then some (digitsVal ip) else none
  | (ip, _ :: fp) =>
    if allDigits ip && allDigits fp && (!ip.isEmpty || !fp.isEmpty) then
      some ((digitsVal ip : ℚ) + (digitsVal fp : ℚ) / ((10 : ℚ) ^ fp.length))
    else none

/-- Model of JavaScript `Number(string)`: trim, empty means `0`, otherwise a
signed decimal literal; `none` is `NaN`.  (Hexadecimal, exponent and
`Infinity` forms are not modelled; no input in this development uses them.) -/
def strToNumber (s : String) : Option ℚ :=
  let t := jsTrim s
  if t.isEmpty then some 0
  else
    match t.data with
    | '+' :: rest => parseUnsigned rest
    | '-' :: rest => (parseUnsigned rest).map (fun q => -q)
    | l => parseUnsigned l

/-- Model of JavaScript `Number(v)`; `none` is `NaN`. -/
def toNumber : JSVal → Option ℚ
  | .undef => none
  | .null => some 0
  | .num q => some q
  | .nan => none
  | .str s => strToNumber s
  | .bool b => some (if b then 1 else 0)

/-- JavaScript falsiness of a value (`!v`). -/
def jsFalsy : JSVal → Bool
  | .undef => true
  | .null => true
  | .num q => q == 0
  | .nan => true
  | .str s => s.isEmpty
  | .bool b => !b

/-- `typeof v === 'string'`. -/
def isStrVal : JSVal → Bool
  | .str _ => true
  | _ => false

/-- The underlying string of a string value (unused branch returns `""`;
the handlers only apply it to values that passed the string checks). -/
def strOf : JSVal → String
  | .str s => s
  | _ => ""

/-! ## Validator (index.js lines 96-111) -/

/-- The destructured `{ fullname, study_level, age }` of a request body. -/
structure UserInput where
  fullname : JSVal
  study_level : JSVal
  age : JSVal
deriving DecidableEq

def fullnameMsg : String := "fullname is required (string min 2 chars)"
def studyLevelMsg : String := "study_level is required (string)"
def ageRequiredMsg : String := "age is required and must be a number"
def ageRangeMsg : String := "age must be an integer between 0 and 150"

/-- `!fullname || typeof fullname !== 'string' || fullname.trim().length < 2`. -/
def fullnameBad (v : JSVal) : Bool :=
  jsFalsy v || !isStrVal v || decide ((jsTrim (strOf v)).length < 2)

/-- `!study_level || typeof study_level !== 'string' || study_level.trim().length < 1`. -/
def studyLevelBad (v : JSVal) : Bool :=
  jsFalsy v || !isStrVal v || decide ((jsTrim (strOf v)).length < 1)

/-- `age === undefined || age === null || Number.isNaN(Number(age))`. -/
def ageMissing : JSVal → Bool
  | .undef => true
  | .null => true
  | v => (toNumber v).isNone

/-- `!Number.isInteger(Number(age)) || age < 0 || age > 150`; only evaluated
when `Number(age)` is not `NaN`, in which case the relational comparisons
against the number literals coerce `age` with `Number` as well. -/
def ageOutOfRange (v : JSVal) : Bool :=
  match toNumber v with
  | none => false
  | some q => !(q.den == 1) || decide (q < 0) || decide (q > 150)

/-- The `{ valid, errors }` object returned by `validateUser`. -/
structure ValidationResult where
  valid : Bool
  errors : List String
deriving DecidableEq

/-- `validateUser` (index.js lines 96-111) on an object payload: the three
field checks push their message in declaration order and `valid` is
`errors.length === 0`.  (The non-object `Payload invalid` branch is never
reached from the routes, which always pass an object literal.) -/
def validateUser (u : UserInput) : ValidationResult :=
  let errors :=
    (if fullnameBad u.fullname then [fullnameMsg] else []) ++
    (if studyLevelBad u.study_level then [studyLevelMsg] else []) ++
    (if ageMissing u.age then [ageRequiredMsg]
     else if ageOutOfRange u.age then [ageRangeMsg] else [])
  { valid := errors.length == 0, errors := errors }

/-! ## Trim facts -/

theorem jsTrim_data (s : String) :
    (jsTrim s).data = List.rdropWhile isJsWhitespace (List.dropWhile isJsWhitespace s.data) := rfl

/-- A list that is already front-trimmed stays front-trimmed after dropping
from its tail. -/
theorem dropWhile_rdropWhile_of_fix (p : Char → Bool) (m : List Char)
    (hmfix : List.dropWhile p m = m) :
    List.dropWhile p (List.rdropWhile p m) = List.rdropWhile p m := by
  rcases List.rdropWhile_prefix p m with ⟨t, ht⟩
  rw [List.dropWhile_eq_self_iff] at hmfix ⊢
  generalize hx : List.rdropWhile p m = x at ht ⊢
  subst ht
  intro hl
  have h0 : 0 < (x ++ t).length := by
    rw [List.length_append]; omega
  have hget : (x ++ t).get ⟨0, h0⟩ = x.get ⟨0, hl⟩ := by
    simp only [List.get_eq_getElem]
    exact List.getElem_append_left hl
  have := hmfix h0
  rwa [hget] at this

/-- `trim` is idempotent. -/
theorem jsTrim_idem (s : String) : jsTrim (jsTrim s) = jsTrim s := by
  show String.mk _ = String.mk _
  rw [jsTrim_data,
    dropWhile_rdropWhile_of_fix isJsWhitespace _ (List.dropWhile_idempotent _ _),
    List.rdropWhile_idempotent]

/-! ## Substring occurrence (used to state that an error message mentions a
field name) -/

/-- `containsSub pat l`: `pat` occurs as a contiguous sublist of `l`. -/
def containsSub (pat : List Char) : List Char → Bool
  | [] => pat.isEmpty
  | c :: t => pat.isPrefixOf (c :: t) || containsSub pat t

/-- The message text mentions `age`. -/
def mentionsAge (m : String) : Bool := containsSub "age".data m.data

/-! ## The users table and the five route handlers (index.js lines 118-210)

The `users` table is an association list from `uuid` to the stored columns.
Each handler takes a failure schedule `sched`: `sched n = some e` means the
`n`-th `pool.execute` in the request throws an error whose message is `e`
(caught by the handler's `catch`), `sched n = none` means it succeeds. -/

/-- The non-key columns of a `users` row. -/
structure UserRec where
  fullname : String
  study_level : String
  age : ℚ
deriving DecidableEq

/-- A full row, as returned by `SELECT *`. -/
structure UserRow where
  uuid : String
  fullname : String
  study_level : String
  age : ℚ
deriving DecidableEq

def rowOf (u : String) (r : UserRec) : UserRow :=
  ⟨u, r.fullname, r.study_level, r.age⟩

/-- The `users` table. -/
abbrev Store := List (String × UserRec)

/-- A JSON response body, in the shapes the handlers produce. -/
inductive Body where
  | rows (l : List UserRow)
  | row (r : UserRow)
  | errObj (error : String)
  | validationErr (error : String) (details : List String)
  | msgOnly (message : String)
  | msgUser (message : String) (user : UserRow)
deriving DecidableEq

/-- An HTTP response: status code and JSON body. -/
structure Resp where
  status : ℕ
  body : Body
deriving DecidableEq

/-- Schedule on which every storage call succeeds. -/
def okSched : ℕ → Option String := fun _ => none

/-- Schedule on which every storage call fails with message `e`. -/
def failSched (e : String) : ℕ → Option String := fun _ => some e

/-- Schedule on which the first storage call succeeds and later ones fail. -/
def failSndSched (e : String) : ℕ → Option String :=
  fun n => if n == 0 then none else some e

/-- The normalized record the create/update handlers build from a validated
body: `fullname.trim()`, `study_level.trim()`, `Number(age)`. -/
def normalizeRecord (i : UserInput) : UserRec :=
  { fullname := jsTrim (strOf i.fullname)
    study_level := jsTrim (strOf i.study_level)
    age := (toNumber i.age).getD 0 }

/-- `GET /api/users` (lines 118-126). -/
def listUsersH (sched : ℕ → Option String) (store : Store) : Resp :=
  match sched 0 with
  | some _ => ⟨500, .errObj "Unable to list users"⟩
  | none => ⟨200, .rows (store.map fun p => rowOf p.1 p.2)⟩

/-- `GET /api/users/:uuid` (lines 128-141): the first matching row or 404. -/
def getUserH (sched : ℕ → Option String) (store : Store) (u : String) : Resp :=
  match sched 0 with
  | some _ => ⟨500, .errObj "Error fetching user"⟩
  | none =>
    match store.lookup u with
    | none => ⟨404, .errObj "Utilisateur non trouvé"⟩
    | some r => ⟨200, .row (rowOf u r)⟩

/-- `POST /api/users` (lines 143-164): validate, then `INSERT`, then 201 with
the new user object. -/
def createUserH (sched : ℕ → Option String) (store : Store) (u : String)
    (inp : UserInput) : Resp × Store :=
  let v := validateUser inp
  if v.valid then
    match sched 0 with
    | some _ => (⟨500, .errObj "Error creating user"⟩, store)
    | none =>
      let r := normalizeRecord inp
      (⟨201, .row (rowOf u r)⟩, store ++ [(u, r)])
  else (⟨400, .validationErr "Validation failed" v.errors⟩, store)

/-- `PUT /api/users/:uuid` (lines 166-194): validate, then `SELECT` existence
check, then `UPDATE`, then 200 with confirmation and the updated user. -/
def putUserH (sched : ℕ → Option String) (store : Store) (u : String)
    (inp : UserInput) : Resp × Store :=
  let v := validateUser inp
  if v.valid then
    match sched 0 with
    | some _ => (⟨500, .errObj "Error updating user"⟩, store)
    | none =>
      match store.lookup u with
      | none => (⟨404, .errObj "Utilisateur non trouvé"⟩, store)
      | some _ =>
        match sched 1 with
        | some _ => (⟨500, .errObj "Error updating user"⟩, store)
        | none =>
          let r := normalizeRecord inp
          (⟨200, .msgUser "Utilisateur mis à jour" (rowOf u r)⟩,
            store.map fun p => if p.1 == u then (p.1, r) else p)
  else (⟨400, .validationErr "Validation failed" v.errors⟩, store)

/-- `DELETE /api/users/:uuid` (lines 196-210): `DELETE`, then 404 iff the
affected-row count is zero. -/
def deleteUserH (sched : ℕ → Option String) (store : Store) (u : String) :
    Resp × Store :=
  match sched 0 with
  | some _ => (⟨500, .errObj "Error deleting user"⟩, store)
  | none =>
    let remaining := store.filter fun p => p.1 != u
    if store.length - remaining.length == 0 then
      (⟨404, .errObj "Utilisateur non trouvé"⟩, remaining)
    else (⟨200, .msgOnly "Utilisateur supprimé"⟩, remaining)

/-- One requested operation, with its failure schedule. -/
inductive OpW where
  | list (sched : ℕ → Option String)
  | get (sched : ℕ → Option String) (u : String)
  | create (sched : ℕ → Option String) (u : String) (inp : UserInput)
  | put (sched : ℕ → Option String) (u : String) (inp : UserInput)
  | del (sched : ℕ → Option String) (u : String)

/-- Route one operation to its handler. -/
def applyOpW (store : Store) : OpW → Resp × Store
  | .list sched => (listUsersH sched store, store)
  | .get sched u => (getUserH sched store u, store)
  | .create sched u inp => createUserH sched store u inp
  | .put sched u inp => putUserH sched store u inp
  | .del sched u => deleteUserH sched store u

/-- Run a sequence of operations, returning the final table state. -/
def runOps (store : Store) : List OpW → Store
  | [] => store
  | op :: ops => runOps (applyOpW store op).2 ops

/-- The JSON object literal `{ uuid, fullname, study_level, age }` the create
and update handlers serialize: member names paired with leaf values. -/
inductive JLeaf where
  | s (v : String)
  | q (v : ℚ)
deriving DecidableEq

/-- Member list of the serialized user object, in source order. -/
def renderUserRow (r : UserRow) : List (String × JLeaf) :=
  [("uuid", .s r.uuid), ("fullname", .s r.fullname),
   ("study_level", .s r.study_level), ("age", .q r.age)]

/-! ## Startup (index.js lines 72-94 and 229-237)

`initDatabase(retries = 10, delay = 5000)` loops: attempt the pool creation
and schema bootstrap; on success return; on failure decrement `retries` and
wait `delay` ms; when `retries` reaches zero call `process.exit(1)`.
`outcome n` tells whether the `n`-th attempt succeeds.  The `waits` field is
a ghost log of the `setTimeout` delays performed, in order. -/

/-- How the startup routine ends. -/
inductive InitOutcome where
  | connected (attempts : ℕ) (waits : List ℕ)
  | exited (code : ℕ) (attempts : ℕ) (waits : List ℕ)
deriving DecidableEq

/-- `initDatabase` as a function of the attempt outcomes; `attempts` counts
the attempts already made. -/
def initDatabase (outcome : ℕ → Bool) (delay : ℕ) : ℕ → ℕ → InitOutcome
  | 0, attempts => .exited 1 attempts []
  | retries + 1, attempts =>
    if outcome attempts then .connected (attempts + 1) []
    else
      match initDatabase outcome delay retries (attempts + 1) with
      | .connected k ws => .connected k (delay :: ws)
      | .exited c k ws => .exited c k (delay :: ws)

/-- `initDatabase()` with the source defaults `retries = 10`, `delay = 5000`. -/
def initDatabaseRun (outcome : ℕ → Bool) : InitOutcome :=
  initDatabase outcome 5000 10 0

/-- Observable startup events: the HTTP listener opening, a connection
attempt with its result, the database becoming ready, `process.exit(1)`. -/
inductive StartEvent where
  | listen
  | attempt (idx : ℕ) (ok : Bool)
  | ready
  | exit1
deriving DecidableEq

/-- Events produced by the `initDatabase` loop. -/
def initEvents (outcome : ℕ → Bool) : ℕ → ℕ → List StartEvent
  | 0, _ => [.exit1]
  | retries + 1, idx =>
    .attempt idx (outcome idx) ::
      (if outcome idx then [.ready] else initEvents outcome retries (idx + 1))

/-- Startup event order of the program: `app.listen(PORT, async () => {
await initDatabase(); ... })` (lines 229-237) opens the listener first and
only then runs `initDatabase` inside the listen callback. -/
def serverEvents (outcome : ℕ → Bool) : List StartEvent :=
  .listen :: initEvents outcome 10 0

/-! ## Validator facts -/

theorem validateUser_errors_eq (u : UserInput) :
    (validateUser u).errors =
      (if fullnameBad u.fullname then [fullnameMsg] else []) ++
      (if studyLevelBad u.study_level then [studyLevelMsg] else []) ++
      (if ageMissing u.age then [ageRequiredMsg]
       else if ageOutOfRange u.age then [ageRangeMsg] else []) := rfl

theorem validateUser_valid_iff (u : UserInput) :
    (validateUser u).valid = true ↔
      fullnameBad u.fullname = false ∧ studyLevelBad u.study_level = false ∧
        ageMissing u.age = false ∧ ageOutOfRange u.age = false := by
  cases h1 : fullnameBad u.fullname <;> cases h2 : studyLevelBad u.study_level <;>
    cases h3 : ageMissing u.age <;> cases h4 : ageOutOfRange u.age <;>
      simp [validateUser, h1, h2, h3, h4]

theorem validateUser_of_valid (u : UserInput)
    (h : (validateUser u).valid = true) : validateUser u = ⟨true, []⟩ := by
  obtain ⟨h1, h2, h3, h4⟩ := (validateUser_valid_iff u).mp h
  simp [validateUser, h1, h2, h3, h4]

theorem fullnameBad_false (v : JSVal) (h : fullnameBad v = false) :
    ∃ s, v = .str s ∧ 2 ≤ (jsTrim s).length := by
  cases v <;> simp [fullnameBad, jsFalsy, isStrVal, strOf] at h ⊢
  omega

theorem studyLevelBad_false (v : JSVal) (h : studyLevelBad v = false) :
    ∃ s, v = .str s ∧ 1 ≤ (jsTrim s).length := by
  cases v <;> simp [studyLevelBad, jsFalsy, isStrVal, strOf] at h ⊢
  omega

theorem ageChecks_false (v : JSVal) (h3 : ageMissing v = false)
    (h4 : ageOutOfRange v = false) :
    ∃ q, toNumber v = some q ∧ q.den = 1 ∧ 0 ≤ q ∧ q ≤ 150 := by
  cases v <;> simp [ageMissing] at h3
  all_goals
    rcases ho : toNumber _ with _ | q <;>
      simp [Option.isNone, ho] at h3 ⊢ <;>
        simp [ageOutOfRange, ho] at h4 <;>
          exact ⟨h4.1.1, h4.1.2, h4.2⟩

/-! ## Association-list facts about the modelled table -/

theorem lookup_append_of_none {α β : Type} [BEq α] [LawfulBEq α]
    {l₁ l₂ : List (α × β)} {k : α} (h : l₁.lookup k = none) :
    (l₁ ++ l₂).lookup k = l₂.lookup k := by
  rw [List.lookup_append, h, Option.none_or]

theorem lookup_map_put_self (store : Store) (u : String) (r : UserRec)
    (h : (store.lookup u).isSome = true) :
    ((store.map fun p => if p.1 == u then (p.1, r) else p).lookup u)
      = some r := by
  induction store with
  | nil => simp at h
  | cons hd tl ih =>
    obtain ⟨k, v⟩ := hd
    rw [List.lookup_cons] at h
    by_cases hk : u = k
    · subst hk
      simp [List.map_cons, List.lookup_cons]
    · have hb : (k == u) = false := by simp [Ne.symm hk]
      have hb' : (u == k) = false := by simp [hk]
      have h' : (List.lookup u tl).isSome = true := by simpa [hb'] using h
      simpa [List.map_cons, List.lookup_cons, Ne.symm hk, hk, hb, hb']
        using ih h'

theorem lookup_map_put_none (store : Store) (u u' : String) (r : UserRec)
    (h : store.lookup u = none) :
    ((store.map fun p => if p.1 == u' then (p.1, r) else p).lookup u)
      = none := by
  induction store with
  | nil => simp
  | cons hd tl ih =>
    obtain ⟨k, v⟩ := hd
    rw [List.lookup_cons] at h
    have hk : ¬(u = k) := by
      intro e
      subst e
      simp at h
    have hb' : (u == k) = false := by simp [hk]
    have h' : List.lookup u tl = none := by simpa [hb'] using h
    by_cases hk' : k = u'
    · subst hk'
      simpa [List.map_cons, List.lookup_cons, hk, hb'] using ih h'
    · simpa [List.map_cons, List.lookup_cons, hk, hk', hb'] using ih h'

theorem lookup_filter_ne_self (store : Store) (u : String) :
    ((store.filter fun p => p.1 != u).lookup u) = none := by
  induction store with
  | nil => simp
  | cons hd tl ih =>
    obtain ⟨k, v⟩ := hd
    rw [List.filter_cons]
    by_cases hk : k = u
    · simp only [hk, bne_self_eq_false, Bool.false_eq_true, if_false]
      exact ih
    · have hb : (k != u) = true := by simp [bne, hk]
      have hb' : (u == k) = false := by simp [Ne.symm hk]
      simp only [hb, if_true, List.lookup_cons, hb', Bool.false_eq_true,
        if_false]
      exact ih

theorem lookup_filter_of_none (store : Store) (u : String)
    (f : String × UserRec → Bool) (h : store.lookup u = none) :
    ((store.filter f).lookup u) = none :=
  (List.filter_sublist store).lookup_eq_none h

/-! ## The record invariant -/

/-- Every stored column satisfies the validated shape: trimmed `fullname` of
length at least 2, trimmed nonempty `study_level`, integer `age` in
`[0, 150]`. -/
def goodRec (r : UserRec) : Prop :=
  r.fullname = jsTrim r.fullname ∧ 2 ≤ r.fullname.length ∧
    r.study_level = jsTrim r.study_level ∧ 1 ≤ r.study_level.length ∧
      r.age.den = 1 ∧ 0 ≤ r.age ∧ r.age ≤ 150

instance (r : UserRec) : Decidable (goodRec r) := by
  unfold goodRec; infer_instance

/-- Every row of the table satisfies `goodRec`. -/
def goodStore (s : Store) : Prop := ∀ p ∈ s, goodRec p.2

instance (s : Store) : Decidable (goodStore s) := by
  unfold goodStore; infer_instance

/-- A validated body normalizes to a record satisfying the invariant. -/
theorem goodRec_normalize (inp : UserInput)
    (h : (validateUser inp).valid = true) : goodRec (normalizeRecord inp) := by
  obtain ⟨h1, h2, h3, h4⟩ := (validateUser_valid_iff inp).mp h
  obtain ⟨s, hs, hlen⟩ := fullnameBad_false _ h1
  obtain ⟨t, ht, htlen⟩ := studyLevelBad_false _ h2
  obtain ⟨q, hq, hden, hq0, hq150⟩ := ageChecks_false _ h3 h4
  refine ⟨?_, ?_, ?_, ?_, ?_, ?_, ?_⟩ <;>
    simp [normalizeRecord, hs, ht, strOf, hq, jsTrim_idem, hlen, htlen,
      hden, hq0, hq150]

/-! ## Startup facts -/

theorem initDatabase_exhaust (outcome : ℕ → Bool) (delay : ℕ) :
    ∀ (retries a : ℕ), (∀ j, a ≤ j → j < a + retries → outcome j = false) →
      initDatabase outcome delay retries a
        = .exited 1 (a + retries) (List.replicate retries delay) := by
  intro retries
  induction retries with
  | zero => intro a _; simp [initDatabase]
  | succ r ih =>
    intro a h
    have h0 : outcome a = false := h a le_rfl (by omega)
    have hrec := ih (a + 1) (fun j hj1 hj2 => h j (by omega) (by omega))
    rw [show a + 1 + r = a + (r + 1) from by omega] at hrec
    simp [initDatabase, h0, hrec, List.replicate_succ]

theorem initDatabase_firstSuccess (outcome : ℕ → Bool) (delay : ℕ) :
    ∀ (k retries a : ℕ), k < retries →
      (∀ j, a ≤ j → j < a + k → outcome j = false) →
      outcome (a + k) = true →
      initDatabase outcome delay retries a
        = .connected (a + k + 1) (List.replicate k delay) := by
  intro k
  induction k with
  | zero =>
    intro retries a hk _ hs
    obtain ⟨r, rfl⟩ : ∃ r, retries = r + 1 := ⟨retries - 1, by omega⟩
    simp only [Nat.add_zero] at hs
    simp [initDatabase, hs]
  | succ k ih =>
    intro retries a hk hf hs
    obtain ⟨r, rfl⟩ : ∃ r, retries = r + 1 := ⟨retries - 1, by omega⟩
    have h0 : outcome a = false := hf a le_rfl (by omega)
    have hrec := ih r (a + 1) (by omega)
      (fun j hj1 hj2 => hf j (by omega) (by omega))
      (by rw [show a + 1 + k = a + (k + 1) from by omega]; exact hs)
    rw [show a + 1 + k + 1 = a + (k + 1) + 1 from by omega] at hrec
    simp [initDatabase, h0, hrec, List.replicate_succ]

theorem initDatabase_inv (outcome : ℕ → Bool) (delay : ℕ) :
    ∀ (retries a : ℕ),
      (∀ k ws, initDatabase outcome delay retries a = .connected k ws →
        a < k ∧ k ≤ a + retries ∧ ws = List.replicate (k - a - 1) delay) ∧
      (∀ c k ws, initDatabase outcome delay retries a = .exited c k ws →
        c = 1 ∧ k = a + retries ∧ ws = List.replicate retries delay) := by
  intro retries
  induction retries with
  | zero =>
    intro a
    constructor
    · intro k ws h
      simp [initDatabase] at h
    · intro c k ws h
      simp [initDatabase] at h
      obtain ⟨rfl, rfl, rfl⟩ := h
      simp
  | succ r ih =>
    intro a
    constructor
    · intro k ws h
      by_cases h0 : outcome a
      · simp [initDatabase, h0] at h
        obtain ⟨rfl, rfl⟩ := h
        refine ⟨by omega, by omega, by simp⟩
      · rcases hrec : initDatabase outcome delay r (a + 1) with ⟨k', ws'⟩ | ⟨c', k', ws'⟩
        · simp [initDatabase, h0, hrec] at h
          obtain ⟨rfl, rfl⟩ := h
          obtain ⟨hlt, hle, hws⟩ := (ih (a + 1)).1 k' ws' hrec
          refine ⟨by omega, by omega, ?_⟩
          rw [hws, show k' - a - 1 = (k' - (a + 1) - 1) + 1 from by omega,
            List.replicate_succ]
        · simp [initDatabase, h0, hrec] at h
    · intro c k ws h
      by_cases h0 : outcome a
      · simp [initDatabase, h0] at h
      · rcases hrec : initDatabase outcome delay r (a + 1) with ⟨k', ws'⟩ | ⟨c', k', ws'⟩
        · simp [initDatabase, h0, hrec] at h
        · simp [initDatabase, h0, hrec] at h
          obtain ⟨rfl, rfl, rfl⟩ := h
          obtain ⟨rfl, hk, hws⟩ := (ih (a + 1)).2 c' k' ws' hrec
          refine ⟨rfl, by omega, ?_⟩
          rw [hws, List.replicate_succ]

theorem initEvents_all_fail (outcome : ℕ → Bool) :
    ∀ (retries idx : ℕ),
      (∀ j, idx ≤ j → j < idx + retries → outcome j = false) →
      StartEvent.ready ∉ initEvents outcome retries idx ∧
        StartEvent.exit1 ∈ initEvents outcome retries idx := by
  intro retries
  induction retries with
  | zero => intro idx _; simp [initEvents]
  | succ r ih =>
    intro idx h
    have h0 : outcome idx = false := h idx le_rfl (by omega)
    have hrec := ih (idx + 1) (fun j hj1 hj2 => h j (by omega) (by omega))
    simp [initEvents, h0, hrec.1, hrec.2]

/-! ## Preservation lemmas for the table -/

theorem goodStore_applyOpW (s : Store) (op : OpW) (h : goodStore s) :
    goodStore (applyOpW s op).2 := by
  cases op with
  | list sched => exact h
  | get sched u => exact h
  | create sched u inp =>
    simp only [applyOpW, createUserH]
    by_cases hv : (validateUser inp).valid = true
    · cases hs : sched 0 with
      | some e => simpa [hv, hs] using h
      | none =>
        simp only [hv, if_true, hs]
        intro p hp
        rcases List.mem_append.mp hp with h1 | h2
        · exact h p h1
        · have : p = (u, normalizeRecord inp) := by simpa using h2
          rw [this]
          exact goodRec_normalize inp hv
    · simpa [hv] using h
  | put sched u inp =>
    simp only [applyOpW, putUserH]
    by_cases hv : (validateUser inp).valid = true
    · cases hs : sched 0 with
      | some e => simpa [hv, hs] using h
      | none =>
        cases hl : s.lookup u with
        | none => simpa [hv, hs, hl] using h
        | some r0 =>
          cases hs1 : sched 1 with
          | some e => simpa [hv, hs, hl, hs1] using h
          | none =>
            simp only [hv, if_true, hs, hl, hs1]
            intro p hp
            rcases List.mem_map.mp hp with ⟨p', hp', hpe⟩
            by_cases hk : p'.1 == u
            · rw [← hpe]
              simpa [hk] using goodRec_normalize inp hv
            · rw [← hpe]
              simpa [hk] using h p' hp'
    · simpa [hv] using h
  | del sched u =>
    cases hs : sched 0 with
    | some e => simpa [applyOpW, deleteUserH, hs] using h
    | none =>
      simp only [applyOpW, deleteUserH, hs]
      by_cases hz :
          s.length - (s.filter fun p => p.1 != u).length == 0 <;>
        · simp only [hz]
          intro p hp
          exact h p (List.mem_of_mem_filter hp)

theorem goodStore_runOps (ops : List OpW) :
    ∀ s, goodStore s → goodStore (runOps s ops) := by
  induction ops with
  | nil => intro s h; exact h
  | cons op ops ih =>
    intro s h
    exact ih _ (goodStore_applyOpW s op h)

theorem lookup_none_applyOpW (s : Store) (u : String) (op : OpW)
    (h : s.lookup u = none)
    (hop : ∀ sched inp, op ≠ OpW.create sched u inp) :
    ((applyOpW s op).2).lookup u = none := by
  cases op with
  | list sched => exact h
  | get sched u' => exact h
  | create sched u' inp =>
    have hu : u' ≠ u := by
      intro e
      exact (hop sched inp) (by rw [e])
    simp only [applyOpW, createUserH]
    by_cases hv : (validateUser inp).valid = true
    · cases hs : sched 0 with
      | some e => simpa [hv, hs] using h
      | none =>
        simp only [hv, if_true, hs]
        rw [lookup_append_of_none h]
        have hb : (u == u') = false := by simp [Ne.symm hu]
        rw [List.lookup_cons, hb]
        rfl
    · simpa [hv] using h
  | put sched u' inp =>
    simp only [applyOpW, putUserH]
    by_cases hv : (validateUser inp).valid = true
    · cases hs : sched 0 with
      | some e => simpa [hv, hs] using h
      | none =>
        cases hl : s.lookup u' with
        | none => simpa [hv, hs, hl] using h
        | some r0 =>
          cases hs1 : sched 1 with
          | some e => simpa [hv, hs, hl, hs1] using h
          | none =>
            simp only [hv, if_true, hs, hl, hs1]
            exact lookup_map_put_none s u u' _ h
    · simpa [hv] using h
  | del sched u' =>
    cases hs : sched 0 with
    | some e => simpa [applyOpW, deleteUserH, hs] using h
    | none =>
      simp only [applyOpW, deleteUserH, hs]
      by_cases hz :
          s.length - (s.filter fun p => p.1 != u').length == 0 <;>
        · simp only [hz]
          exact lookup_filter_of_none s u _ h

theorem lookup_none_runOps (u : String) (ops : List OpW) :
    ∀ s, s.lookup u = none →
      (∀ op ∈ ops, ∀ sched inp, op ≠ OpW.create sched u inp) →
      (runOps s ops).lookup u = none := by
  induction ops with
  | nil => intro s h _; exact h
  | cons op ops ih =>
    intro s h hops
    exact ih _
      (lookup_none_applyOpW s u op h (hops op (List.mem_cons_self op ops)))
      (fun op' hop' => hops op' (List.mem_cons_of_mem op hop'))

/-! ## Claims -/

/-- Claim C1 counterexample: the code calls `app.listen(PORT, async () => {
await initDatabase(); ... })`, so with every connection attempt failing the
startup trace has the listener opening as its very first event, before any
attempt, and `process.exit(1)` still occurs afterwards: an HTTP listener is
opened on the `Connecting -> Failed` path, contradicting the claim. -/
theorem listener_opens_before_storage_counterexample :
    (serverEvents (fun _ => false)).head? = some StartEvent.listen ∧
      StartEvent.exit1 ∈ serverEvents (fun _ => false) ∧
      StartEvent.ready ∉ serverEvents (fun _ => false) := by
  refine ⟨rfl, ?_, ?_⟩ <;> decide

/-- Claim C1 (amended): the HTTP listener is opened first, before any
storage attempt — in every execution the first startup event is the
listener opening — and on the path where all retries are exhausted the
process still exits with status 1 (never reaching `ready`), but the
listener had already been opened. -/
theorem listener_first_then_init (outcome : ℕ → Bool)
    (hfail : ∀ j, j < 10 → outcome j = false) :
    (∀ oc : ℕ → Bool, (serverEvents oc).head? = some StartEvent.listen) ∧
      StartEvent.exit1 ∈ serverEvents outcome ∧
      StartEvent.ready ∉ serverEvents outcome := by
  have hall := initEvents_all_fail outcome 10 0
    (fun j h1 h2 => hfail j (by omega))
  refine ⟨fun _ => rfl, List.mem_cons_of_mem _ hall.2, ?_⟩
  intro hmem
  rcases List.mem_cons.mp hmem with h | h
  · exact absurd h (by decide)
  · exact hall.1 h

theorem listener_first_then_init_witness :
    (∀ oc : ℕ → Bool, (serverEvents oc).head? = some StartEvent.listen) ∧
      StartEvent.exit1 ∈ serverEvents (fun _ => false) ∧
      StartEvent.ready ∉ serverEvents (fun _ => false) :=
  listener_first_then_init (fun _ => false) (fun _ _ => rfl)

/-- Claim C9: `initDatabase` terminates on every outcome sequence with at
most 10 attempts (the default `maxRetries`), each failed attempt followed by
one fixed 5000 ms delay; it connects as soon as an attempt succeeds, and
when all 10 attempts fail it ends in `process.exit` with the non-zero
status 1 instead of returning. -/
theorem initDatabase_bounded_retries (outcome : ℕ → Bool) :
    (∀ k ws, initDatabaseRun outcome = .connected k ws →
      1 ≤ k ∧ k ≤ 10 ∧ ws = List.replicate (k - 1) 5000) ∧
    (∀ c k ws, initDatabaseRun outcome = .exited c k ws →
      c = 1 ∧ k = 10 ∧ ws = List.replicate 10 5000) ∧
    ((∀ j, j < 10 → outcome j = false) →
      initDatabaseRun outcome = .exited 1 10 (List.replicate 10 5000)) ∧
    (∀ k, k < 10 → (∀ j, j < k → outcome j = false) → outcome k = true →
      initDatabaseRun outcome = .connected (k + 1) (List.replicate k 5000)) := by
  refine ⟨?_, ?_, ?_, ?_⟩
  · intro k ws h
    obtain ⟨h1, h2, h3⟩ := (initDatabase_inv outcome 5000 10 0).1 k ws h
    exact ⟨h1, h2, h3⟩
  · intro c k ws h
    obtain ⟨h1, h2, h3⟩ := (initDatabase_inv outcome 5000 10 0).2 c k ws h
    exact ⟨h1, h2, h3⟩
  · intro hf
    exact initDatabase_exhaust outcome 5000 10 0 (fun j h1 h2 => hf j (by omega))
  · intro k hk hf hs
    have hsc := initDatabase_firstSuccess outcome 5000 k 10 0 hk
      (fun j h1 h2 => hf j (by omega)) (by rw [Nat.zero_add]; exact hs)
    rw [Nat.zero_add] at hsc
    exact hsc

theorem initDatabase_bounded_retries_witness :
    initDatabaseRun (fun j => decide (3 ≤ j))
      = .connected 4 (List.replicate 3 5000) :=
  (initDatabase_bounded_retries (fun j => decide (3 ≤ j))).2.2.2 3 (by decide)
    (fun j hj => by simp only [decide_eq_false_iff_not]; omega) (by decide)

/-- Claim C2 counterexample: the validator's output does not contain the
normalized record — `validateUser` returns only `{ valid, errors }`.  Two
valid inputs with different normalizations (` John ` vs `Johnny`) produce
the exact same validator output, so no part of that output can be the
normalized record. -/
theorem validator_output_lacks_normalized_record :
    validateUser ⟨.str " John ", .str "Master", .num 25⟩
        = validateUser ⟨.str "Johnny", .str "Master", .num 25⟩ ∧
      (validateUser ⟨.str " John ", .str "Master", .num 25⟩).valid = true ∧
      normalizeRecord ⟨.str " John ", .str "Master", .num 25⟩
        ≠ normalizeRecord ⟨.str "Johnny", .str "Master", .num 25⟩ := by
  refine ⟨?_, ?_, ?_⟩ <;> decide

/-- Claim C2 (amended): on every successfully validated input the validator
returns only the flag object `{valid: true, errors: []}`; the normalized
record — `fullname` and `study_level` trimmed, `age` coerced with `Number`
to an integer-valued number — is built by the create handler (and equally
the update handler), not returned by the validator. -/
theorem validator_flags_only_handlers_normalize (inp : UserInput)
    (store : Store) (u : String) (h : (validateUser inp).valid = true) :
    validateUser inp = ⟨true, []⟩ ∧
      createUserH okSched store u inp
        = (⟨201, .row (rowOf u (normalizeRecord inp))⟩,
            store ++ [(u, normalizeRecord inp)]) ∧
      (∃ s, inp.fullname = .str s ∧
        (normalizeRecord inp).fullname = jsTrim s) ∧
      (∃ t, inp.study_level = .str t ∧
        (normalizeRecord inp).study_level = jsTrim t) ∧
      (normalizeRecord inp).age = (toNumber inp.age).getD 0 ∧
      (normalizeRecord inp).age.den = 1 := by
  obtain ⟨h1, h2, h3, h4⟩ := (validateUser_valid_iff inp).mp h
  obtain ⟨s, hs, _⟩ := fullnameBad_false _ h1
  obtain ⟨t, ht, _⟩ := studyLevelBad_false _ h2
  obtain ⟨q, hq, hden, _, _⟩ := ageChecks_false _ h3 h4
  refine ⟨validateUser_of_valid inp h, ?_,
    ⟨s, hs, by simp [normalizeRecord, hs, strOf]⟩,
    ⟨t, ht, by simp [normalizeRecord, ht, strOf]⟩, rfl,
    by simp [normalizeRecord, hq, hden]⟩
  simp [createUserH, h, okSched]

theorem validator_flags_only_handlers_normalize_witness :
    validateUser ⟨.str " John ", .str "Master", .num 25⟩ = ⟨true, []⟩ ∧
      createUserH okSched [] "u1" ⟨.str " John ", .str "Master", .num 25⟩
        = (⟨201, .row (rowOf "u1"
              (normalizeRecord ⟨.str " John ", .str "Master", .num 25⟩))⟩,
            [] ++ [("u1",
              normalizeRecord ⟨.str " John ", .str "Master", .num 25⟩)]) ∧
      (∃ s, (UserInput.mk (.str " John ") (.str "Master") (.num 25)).fullname
          = .str s ∧
        (normalizeRecord ⟨.str " John ", .str "Master", .num 25⟩).fullname
          = jsTrim s) ∧
      (∃ t, (UserInput.mk (.str " John ") (.str "Master") (.num 25)).study_level
          = .str t ∧
        (normalizeRecord ⟨.str " John ", .str "Master", .num 25⟩).study_level
          = jsTrim t) ∧
      (normalizeRecord ⟨.str " John ", .str "Master", .num 25⟩).age
        = (toNumber (JSVal.num 25)).getD 0 ∧
      (normalizeRecord ⟨.str " John ", .str "Master", .num 25⟩).age.den = 1 :=
  validator_flags_only_handlers_normalize
    ⟨.str " John ", .str "Master", .num 25⟩ [] "u1" (by decide)

/-- Claim C3 counterexample: the created record's identifier field is named
`uuid`, not `id`.  The John Doe request succeeds with 201, and the
serialized response object has no member named `id`; the generated
identifier sits under the member named `uuid`. -/
theorem create_body_uses_uuid_not_id :
    createUserH okSched [] "a1b2c3" ⟨.str "John Doe", .str "Master", .num 25⟩
        = (⟨201, .row ⟨"a1b2c3", "John Doe", "Master", 25⟩⟩,
            [("a1b2c3", ⟨"John Doe", "Master", 25⟩)]) ∧
      (renderUserRow ⟨"a1b2c3", "John Doe", "Master", 25⟩).lookup "id"
        = none ∧
      (renderUserRow ⟨"a1b2c3", "John Doe", "Master", 25⟩).lookup "uuid"
        = some (.s "a1b2c3") := by
  refine ⟨?_, ?_, ?_⟩ <;> decide

/-- Claim C3 (amended): for every valid creation input the create operation
returns 201 with a body that is the created record, whose generated
identifier appears under the field name `uuid`; in particular the John Doe
request returns 201 with body `{uuid: <generated>, fullname: John Doe,
study_level: Master, age: 25}`. -/
theorem create_returns_record_with_uuid_field (store : Store) (u : String)
    (inp : UserInput) (h : (validateUser inp).valid = true) :
    (createUserH okSched store u inp).1
        = ⟨201, .row (rowOf u (normalizeRecord inp))⟩ ∧
      (renderUserRow (rowOf u (normalizeRecord inp))).lookup "uuid"
        = some (.s u) ∧
      (createUserH okSched store u ⟨.str "John Doe", .str "Master", .num 25⟩).1
        = ⟨201, .row ⟨u, "John Doe", "Master", 25⟩⟩ := by
  refine ⟨?_, rfl, rfl⟩
  simp [createUserH, h, okSched]

theorem create_returns_record_with_uuid_field_witness :
    (createUserH okSched [] "u7"
        ⟨.str "John Doe", .str "Master", .num 25⟩).1
        = ⟨201, .row (rowOf "u7"
            (normalizeRecord ⟨.str "John Doe", .str "Master", .num 25⟩))⟩ ∧
      (renderUserRow (rowOf "u7"
          (normalizeRecord ⟨.str "John Doe", .str "Master", .num 25⟩))).lookup
          "uuid" = some (.s "u7") ∧
      (createUserH okSched [] "u7"
          ⟨.str "John Doe", .str "Master", .num 25⟩).1
        = ⟨201, .row ⟨"u7", "John Doe", "Master", 25⟩⟩ :=
  create_returns_record_with_uuid_field [] "u7"
    ⟨.str "John Doe", .str "Master", .num 25⟩ (by decide)

/-- Claim C4: the validator applies the field rules independently and
collects every violation: each field's message appears in the error list
exactly when that field's check fails, irrespective of the other fields,
and the list is always in field declaration order (a sublist of the
canonical `fullname`, `study_level`, `age-required`, `age-range`
sequence); on failure, create and update return exactly this list in the
400 response body, with the table unchanged. -/
theorem validation_collects_all_errors_in_order (inp : UserInput)
    (sched : ℕ → Option String) (store : Store) (u : String) :
    List.Sublist (validateUser inp).errors
        [fullnameMsg, studyLevelMsg, ageRequiredMsg, ageRangeMsg] ∧
      (fullnameMsg ∈ (validateUser inp).errors ↔
        fullnameBad inp.fullname = true) ∧
      (studyLevelMsg ∈ (validateUser inp).errors ↔
        studyLevelBad inp.study_level = true) ∧
      (ageRequiredMsg ∈ (validateUser inp).errors ↔
        ageMissing inp.age = true) ∧
      (ageRangeMsg ∈ (validateUser inp).errors ↔
        (ageMissing inp.age = false ∧ ageOutOfRange inp.age = true)) ∧
      ((validateUser inp).valid = false →
        createUserH sched store u inp
          = (⟨400, .validationErr "Validation failed"
              (validateUser inp).errors⟩, store) ∧
        putUserH sched store u inp
          = (⟨400, .validationErr "Validation failed"
              (validateUser inp).errors⟩, store)) := by
  have hpart :
      List.Sublist (validateUser inp).errors
          [fullnameMsg, studyLevelMsg, ageRequiredMsg, ageRangeMsg] ∧
        (fullnameMsg ∈ (validateUser inp).errors ↔
          fullnameBad inp.fullname = true) ∧
        (studyLevelMsg ∈ (validateUser inp).errors ↔
          studyLevelBad inp.study_level = true) ∧
        (ageRequiredMsg ∈ (validateUser inp).errors ↔
          ageMissing inp.age = true) ∧
        (ageRangeMsg ∈ (validateUser inp).errors ↔
          (ageMissing inp.age = false ∧ ageOutOfRange inp.age = true)) := by
    cases h1 : fullnameBad inp.fullname <;>
      cases h2 : studyLevelBad inp.study_level <;>
        cases h3 : ageMissing inp.age <;>
          cases h4 : ageOutOfRange inp.age <;>
            refine ⟨?_, ?_, ?_, ?_, ?_⟩ <;>
              simp [validateUser, h1, h2, h3, h4] <;> decide
  refine ⟨hpart.1, hpart.2.1, hpart.2.2.1, hpart.2.2.2.1, hpart.2.2.2.2, ?_⟩
  intro hv
  constructor
  · simp [createUserH, hv]
  · simp [putUserH, hv]

theorem validation_collects_all_errors_in_order_witness :
    createUserH okSched [] "u1" ⟨.null, .null, .null⟩
        = (⟨400, .validationErr "Validation failed"
            [fullnameMsg, studyLevelMsg, ageRequiredMsg]⟩, []) ∧
      putUserH okSched [] "u1" ⟨.null, .null, .null⟩
        = (⟨400, .validationErr "Validation failed"
            [fullnameMsg, studyLevelMsg, ageRequiredMsg]⟩, []) := by
  have h := (validation_collects_all_errors_in_order
    ⟨.null, .null, .null⟩ okSched [] "u1").2.2.2.2.2 (by decide)
  have he : (validateUser ⟨.null, .null, .null⟩).errors
      = [fullnameMsg, studyLevelMsg, ageRequiredMsg] := by decide
  rw [he] at h
  exact h

/-- The claim C5 hypothesis (`age` non-integer, negative or above 150 after
the `Number` coercion) forces the validator's age branch to fail. -/
theorem age_bad_cases (v : JSVal)
    (h : toNumber v = none ∨
      ∃ q, toNumber v = some q ∧ (q.den ≠ 1 ∨ q < 0 ∨ 150 < q)) :
    ageMissing v = true ∨
      (ageMissing v = false ∧ ageOutOfRange v = true) := by
  rcases h with hn | ⟨q, hq, hbad⟩
  · left
    cases v
    case undef => rfl
    case null => simp [toNumber] at hn
    all_goals simp [ageMissing, hn]
  · right
    have hm : ageMissing v = false := by
      cases v
      case undef => simp [toNumber] at hq
      case null =>
        have : q = 0 := by
          simp [toNumber] at hq
          exact hq.symm
        subst this
        rcases hbad with hb | hb | hb <;> norm_num at hb
      all_goals simp [ageMissing, hq]
    refine ⟨hm, ?_⟩
    simp only [ageOutOfRange, hq]
    rcases hbad with hb | hb | hb <;> simp [hb]

/-- Claim C5: whenever the `age` field coerces to `NaN`, to a non-integer,
to a negative number or to a number above 150, both the create and the
update operation answer 400, whatever the table contents, target id and
storage behaviour, and the 400 body's error list contains a message that
mentions `age`. -/
theorem age_violation_yields_400_mentioning_age (inp : UserInput)
    (sched : ℕ → Option String) (store : Store) (u : String)
    (h : toNumber inp.age = none ∨
      ∃ q, toNumber inp.age = some q ∧ (q.den ≠ 1 ∨ q < 0 ∨ 150 < q)) :
    (createUserH sched store u inp).1.status = 400 ∧
      (putUserH sched store u inp).1.status = 400 ∧
      ∃ msg, msg ∈ (validateUser inp).errors ∧ mentionsAge msg = true ∧
        (createUserH sched store u inp).1.body
          = .validationErr "Validation failed" (validateUser inp).errors ∧
        (putUserH sched store u inp).1.body
          = .validationErr "Validation failed" (validateUser inp).errors := by
  have hac := age_bad_cases inp.age h
  have hmsg : ∃ msg, (msg = ageRequiredMsg ∨ msg = ageRangeMsg) ∧
      msg ∈ (validateUser inp).errors := by
    rcases hac with h3 | ⟨h3, h4⟩
    · exact ⟨ageRequiredMsg, Or.inl rfl,
        by rw [validateUser_errors_eq]; simp [h3]⟩
    · exact ⟨ageRangeMsg, Or.inr rfl,
        by rw [validateUser_errors_eq]; simp [h3, h4]⟩
  obtain ⟨msg, hor, hmem⟩ := hmsg
  have hvalid : (validateUser inp).valid = false := by
    have hne : (validateUser inp).errors ≠ [] := by
      intro he
      rw [he] at hmem
      exact absurd hmem (List.not_mem_nil msg)
    have hv : (validateUser inp).valid
        = ((validateUser inp).errors.length == 0) := rfl
    rw [hv]
    cases herr : (validateUser inp).errors with
    | nil => exact absurd herr hne
    | cons a l => simp
  have hmA : mentionsAge msg = true := by
    rcases hor with rfl | rfl <;> decide
  refine ⟨?_, ?_, msg, hmem, hmA, ?_, ?_⟩ <;>
    simp [createUserH, putUserH, hvalid]

theorem age_violation_yields_400_mentioning_age_witness :
    (createUserH okSched [] "u1" ⟨.str "John", .str "M", .num 151⟩).1.status
        = 400 ∧
      (putUserH okSched [] "u1" ⟨.str "John", .str "M", .num 151⟩).1.status
        = 400 ∧
      ∃ msg, msg ∈ (validateUser ⟨.str "John", .str "M", .num 151⟩).errors ∧
        mentionsAge msg = true ∧
        (createUserH okSched [] "u1"
            ⟨.str "John", .str "M", .num 151⟩).1.body
          = .validationErr "Validation failed"
              (validateUser ⟨.str "John", .str "M", .num 151⟩).errors ∧
        (putUserH okSched [] "u1" ⟨.str "John", .str "M", .num 151⟩).1.body
          = .validationErr "Validation failed"
              (validateUser ⟨.str "John", .str "M", .num 151⟩).errors :=
  age_violation_yields_400_mentioning_age
    ⟨.str "John", .str "M", .num 151⟩ okSched [] "u1"
    (Or.inr ⟨151, rfl, Or.inr (Or.inr (by norm_num))⟩)

/-- Claim C6: on create and update, validation runs before any existence
check or write: with an invalid body, update answers 400 with the error
list and leaves the table untouched for every table, every target id and
every storage schedule (in particular no storage call is needed and the
response is the same whether or not the id exists), and create behaves
identically. -/
theorem validation_precedes_existence_check (inp : UserInput)
    (sched : ℕ → Option String) (store store' : Store) (u : String)
    (h : (validateUser inp).valid = false) :
    putUserH sched store u inp
        = (⟨400, .validationErr "Validation failed"
            (validateUser inp).errors⟩, store) ∧
      createUserH sched store u inp
        = (⟨400, .validationErr "Validation failed"
            (validateUser inp).errors⟩, store) ∧
      (putUserH sched store u inp).1 = (putUserH sched store' u inp).1 := by
  refine ⟨?_, ?_, ?_⟩ <;> simp [putUserH, createUserH, h]

theorem validation_precedes_existence_check_witness :
    putUserH (failSched "boom") [("u9", ⟨"Jane Doe", "PhD", 30⟩)] "u9"
        ⟨.str "J", .str "Master", .num 25⟩
        = (⟨400, .validationErr "Validation failed"
            (validateUser ⟨.str "J", .str "Master", .num 25⟩).errors⟩,
          [("u9", ⟨"Jane Doe", "PhD", 30⟩)]) ∧
      createUserH (failSched "boom") [("u9", ⟨"Jane Doe", "PhD", 30⟩)] "u9"
        ⟨.str "J", .str "Master", .num 25⟩
        = (⟨400, .validationErr "Validation failed"
            (validateUser ⟨.str "J", .str "Master", .num 25⟩).errors⟩,
          [("u9", ⟨"Jane Doe", "PhD", 30⟩)]) ∧
      (putUserH (failSched "boom") [("u9", ⟨"Jane Doe", "PhD", 30⟩)] "u9"
          ⟨.str "J", .str "Master", .num 25⟩).1
        = (putUserH (failSched "boom") [] "u9"
            ⟨.str "J", .str "Master", .num 25⟩).1 :=
  validation_precedes_existence_check ⟨.str "J", .str "Master", .num 25⟩
    (failSched "boom") [("u9", ⟨"Jane Doe", "PhD", 30⟩)] [] "u9" (by decide)

/-- Claim C7: round trips over the operations.  Creating a valid record
under a fresh id and then getting that id returns 200 with exactly the
normalized input (create itself answering 201 with the same record);
updating an existing id with a valid record and then getting it returns
200 with exactly the new normalized record; and after deleting an id,
every subsequent get of that id answers 404, across any further operation
sequence that never re-creates that id (ids are never reused). -/
theorem crud_round_trip (store store2 store3 : Store) (u u2 u3 : String)
    (inp inp2 : UserInput) (r2 : UserRec) (ops : List OpW)
    (hv : (validateUser inp).valid = true)
    (hv2 : (validateUser inp2).valid = true)
    (hfresh : store.lookup u = none)
    (hex : store2.lookup u2 = some r2)
    (hops : ∀ op ∈ ops, ∀ sched inp', op ≠ OpW.create sched u3 inp') :
    (createUserH okSched store u inp).1
        = ⟨201, .row (rowOf u (normalizeRecord inp))⟩ ∧
      getUserH okSched (createUserH okSched store u inp).2 u
        = ⟨200, .row (rowOf u (normalizeRecord inp))⟩ ∧
      getUserH okSched (putUserH okSched store2 u2 inp2).2 u2
        = ⟨200, .row (rowOf u2 (normalizeRecord inp2))⟩ ∧
      getUserH okSched (runOps (deleteUserH okSched store3 u3).2 ops) u3
        = ⟨404, .errObj "Utilisateur non trouvé"⟩ := by
  have hcreate : createUserH okSched store u inp
      = (⟨201, .row (rowOf u (normalizeRecord inp))⟩,
          store ++ [(u, normalizeRecord inp)]) := by
    simp [createUserH, hv, okSched]
  have hl : (store ++ [(u, normalizeRecord inp)]).lookup u
      = some (normalizeRecord inp) := by
    rw [lookup_append_of_none hfresh]
    exact List.lookup_cons_self
  have hput2 : (putUserH okSched store2 u2 inp2).2
      = store2.map fun p =>
          if p.1 == u2 then (p.1, normalizeRecord inp2) else p := by
    simp [putUserH, hv2, okSched, hex]
  have hl2 : ((putUserH okSched store2 u2 inp2).2).lookup u2
      = some (normalizeRecord inp2) := by
    rw [hput2]
    exact lookup_map_put_self store2 u2 _ (by rw [hex]; rfl)
  have hdel2 : (deleteUserH okSched store3 u3).2
      = store3.filter fun p => p.1 != u3 := by
    simp only [deleteUserH, okSched]
    by_cases hz :
        (store3.length
          - (List.filter (fun p => p.1 != u3) store3).length == 0) = true <;>
      simp [hz]
  have hnone : (runOps (deleteUserH okSched store3 u3).2 ops).lookup u3
      = none := by
    refine lookup_none_runOps u3 ops _ ?_ hops
    rw [hdel2]
    exact lookup_filter_ne_self store3 u3
  refine ⟨by rw [hcreate], ?_, ?_, ?_⟩
  · rw [hcreate]
    simp [getUserH, okSched, hl]
  · simp [getUserH, okSched, hl2]
  · simp [getUserH, okSched, hnone]

theorem crud_round_trip_witness :
    (createUserH okSched [] "ca" ⟨.str "John Doe", .str "Master", .num 25⟩).1
        = ⟨201, .row (rowOf "ca"
            (normalizeRecord ⟨.str "John Doe", .str "Master", .num 25⟩))⟩ ∧
      getUserH okSched
          (createUserH okSched [] "ca"
            ⟨.str "John Doe", .str "Master", .num 25⟩).2 "ca"
        = ⟨200, .row (rowOf "ca"
            (normalizeRecord ⟨.str "John Doe", .str "Master", .num 25⟩))⟩ ∧
      getUserH okSched
          (putUserH okSched [("cb", ⟨"Jane Doe", "PhD", 30⟩)] "cb"
            ⟨.str "Jo Doe", .str "Licence", .num 22⟩).2 "cb"
        = ⟨200, .row (rowOf "cb"
            (normalizeRecord ⟨.str "Jo Doe", .str "Licence", .num 22⟩))⟩ ∧
      getUserH okSched
          (runOps (deleteUserH okSched
            [("cc", ⟨"Jane Doe", "PhD", 30⟩)] "cc").2 []) "cc"
        = ⟨404, .errObj "Utilisateur non trouvé"⟩ :=
  crud_round_trip [] [("cb", ⟨"Jane Doe", "PhD", 30⟩)]
    [("cc", ⟨"Jane Doe", "PhD", 30⟩)] "ca" "cb" "cc"
    ⟨.str "John Doe", .str "Master", .num 25⟩
    ⟨.str "Jo Doe", .str "Licence", .num 22⟩
    ⟨"Jane Doe", "PhD", 30⟩ [] (by decide) (by decide) rfl (by decide)
    (by intro op hop; exact absurd hop (List.not_mem_nil op))

/-- Claim C8: whenever a storage call fails during any of the five
operations, the response is 500 with a body holding only the operation's
fixed generic message; the right-hand sides never refer to the underlying
error value `e`, so the body is the same for every error and the internal
error text never reaches the caller. -/
theorem storage_failure_generic_500 (e : String) (store : Store)
    (u : String) (inp : UserInput) (r0 : UserRec)
    (hv : (validateUser inp).valid = true)
    (hex : store.lookup u = some r0) :
    listUsersH (failSched e) store = ⟨500, .errObj "Unable to list users"⟩ ∧
      getUserH (failSched e) store u
        = ⟨500, .errObj "Error fetching user"⟩ ∧
      createUserH (failSched e) store u inp
        = (⟨500, .errObj "Error creating user"⟩, store) ∧
      putUserH (failSched e) store u inp
        = (⟨500, .errObj "Error updating user"⟩, store) ∧
      putUserH (failSndSched e) store u inp
        = (⟨500, .errObj "Error updating user"⟩, store) ∧
      deleteUserH (failSched e) store u
        = (⟨500, .errObj "Error deleting user"⟩, store) := by
  refine ⟨rfl, rfl, ?_, ?_, ?_, rfl⟩
  · simp [createUserH, hv, failSched]
  · simp [putUserH, hv, failSched]
  · simp [putUserH, hv, failSndSched, hex]

theorem storage_failure_generic_500_witness :
    listUsersH (failSched "ECONNRESET") [("u3", ⟨"Jane Doe", "PhD", 30⟩)]
        = ⟨500, .errObj "Unable to list users"⟩ ∧
      getUserH (failSched "ECONNRESET") [("u3", ⟨"Jane Doe", "PhD", 30⟩)] "u3"
        = ⟨500, .errObj "Error fetching user"⟩ ∧
      createUserH (failSched "ECONNRESET")
          [("u3", ⟨"Jane Doe", "PhD", 30⟩)] "u3"
          ⟨.str "John Doe", .str "Master", .num 25⟩
        = (⟨500, .errObj "Error creating user"⟩,
            [("u3", ⟨"Jane Doe", "PhD", 30⟩)]) ∧
      putUserH (failSched "ECONNRESET")
          [("u3", ⟨"Jane Doe", "PhD", 30⟩)] "u3"
          ⟨.str "John Doe", .str "Master", .num 25⟩
        = (⟨500, .errObj "Error updating user"⟩,
            [("u3", ⟨"Jane Doe", "PhD", 30⟩)]) ∧
      putUserH (failSndSched "ECONNRESET")
          [("u3", ⟨"Jane Doe", "PhD", 30⟩)] "u3"
          ⟨.str "John Doe", .str "Master", .num 25⟩
        = (⟨500, .errObj "Error updating user"⟩,
            [("u3", ⟨"Jane Doe", "PhD", 30⟩)]) ∧
      deleteUserH (failSched "ECONNRESET")
          [("u3", ⟨"Jane Doe", "PhD", 30⟩)] "u3"
        = (⟨500, .errObj "Error deleting user"⟩,
            [("u3", ⟨"Jane Doe", "PhD", 30⟩)]) :=
  storage_failure_generic_500 "ECONNRESET"
    [("u3", ⟨"Jane Doe", "PhD", 30⟩)] "u3"
    ⟨.str "John Doe", .str "Master", .num 25⟩
    ⟨"Jane Doe", "PhD", 30⟩ (by decide) rfl

/-- Claim C10: the table invariant — every stored row has a trimmed
`fullname` of length at least 2, a trimmed nonempty `study_level`, and an
integer `age` in `[0, 150]` — is preserved by every operation under every
storage schedule, and consequently holds of every table reachable from the
empty one through the public operations. -/
theorem store_invariant_preserved :
    (∀ (s : Store) (op : OpW), goodStore s → goodStore (applyOpW s op).2) ∧
      (∀ ops : List OpW, goodStore (runOps [] ops)) := by
  refine ⟨fun s op h => goodStore_applyOpW s op h,
    fun ops => goodStore_runOps ops [] ?_⟩
  intro p hp
  exact absurd hp (List.not_mem_nil p)

theorem store_invariant_preserved_witness :
    goodStore ((applyOpW [] (OpW.create okSched "u1"
      ⟨.str " John Doe ", .str "Master", .num 25⟩)).2) :=
  store_invariant_preserved.1 [] _
    (fun p hp => absurd hp (List.not_mem_nil p))
